import Mathlib

/-!
A shallow embedding of the core of the UDP capture program
src/ilisa/observations/beamformedstreams/dump_udp_ow_11.c, together with
theorems about the properties its specification states.

Conventions of the embedding:
  * C long and int values are modelled as Lean Int (no overflow happens at
    the magnitudes involved; where ranges matter they appear as hypotheses).
  * C integer division and remainder truncate toward zero, so they are
    modelled by Int.tdiv and Int.tmod.
  * The raw memory (the double-mapped buffer, pointers to it) is not part of
    any claim below; the pointer-returning functions of the C code are
    modelled as Option-valued functions that return the offset into the
    buffer instead of an address, with none standing for NULL.
-/

/-- State of the virtual ring buffer, struct vrb of the source (the two
pointer fields buff and filename carry no arithmetic state and are omitted):
fillsize = bytes in buffer, front = older end, rear = newer end,
totsize = total size of buffer. -/
structure Vrb where
  fillsize : Int
  front : Int
  rear : Int
  totsize : Int
deriving Repr, DecidableEq

/-- init_vrb of the source: the requested minimum size is promoted to the
next full page size by totsize = (minsize+i-1)/i * i with i the page size,
and front = rear = fillsize = 0. -/
def init_vrb (pagesize minsize : Int) : Vrb :=
  { fillsize := 0
    front := 0
    rear := 0
    totsize := Int.tdiv (minsize + pagesize - 1) pagesize * pagesize }

/-- vrb_poi_new of the source: if fillsize + thissize > totsize there is not
enough space and NULL (none) is returned, otherwise a pointer to offset rear.
The state is not changed. -/
def vrb_poi_new (vrb : Vrb) (thissize : Int) : Option Int :=
  if vrb.fillsize + thissize > vrb.totsize then none else some vrb.rear

/-- vrb_advance_new of the source: rear = (rear+thissize) % totsize and
fillsize increases by thissize. -/
def vrb_advance_new (vrb : Vrb) (thissize : Int) : Vrb :=
  { vrb with
    rear := Int.tmod (vrb.rear + thissize) vrb.totsize
    fillsize := vrb.fillsize + thissize }

/-- vrb_poi_old of the source: NULL (none) if the buffer is empty, otherwise
a pointer to offset front. The state is not changed. -/
def vrb_poi_old (vrb : Vrb) : Option Int :=
  if vrb.fillsize = 0 then none else some vrb.front

/-- vrb_advance_old of the source: front = (front+thissize) % totsize and
fillsize decreases by thissize. -/
def vrb_advance_old (vrb : Vrb) (thissize : Int) : Vrb :=
  { vrb with
    front := Int.tmod (vrb.front + thissize) vrb.totsize
    fillsize := vrb.fillsize - thissize }

/-- The ring-buffer invariant: 0 ≤ fillsize ≤ totsize and
rear = (front + fillsize) mod totsize (Euclidean remainder; front is kept
nonnegative, which makes the C remainder agree with it). -/
def vrbInv (vrb : Vrb) : Prop :=
  0 ≤ vrb.fillsize ∧ vrb.fillsize ≤ vrb.totsize ∧ 0 ≤ vrb.front ∧
    vrb.rear = (vrb.front + vrb.fillsize) % vrb.totsize

instance (vrb : Vrb) : Decidable (vrbInv vrb) := by
  unfold vrbInv
  exact inferInstance

lemma vrb_poi_new_isSome {vrb : Vrb} {n : Int} :
    (vrb_poi_new vrb n).isSome = true ↔ vrb.fillsize + n ≤ vrb.totsize := by
  unfold vrb_poi_new
  split
  · simp_all
  · simp_all

lemma init_vrb_totsize_pos (pagesize minsize : Int) (hps : 0 < pagesize)
    (hms : 0 < minsize) : 0 < (init_vrb pagesize minsize).totsize := by
  show 0 < Int.tdiv (minsize + pagesize - 1) pagesize * pagesize
  rw [Int.tdiv_eq_ediv (by omega) (by omega)]
  have h1 : 1 ≤ (minsize + pagesize - 1) / pagesize := by
    rw [Int.le_ediv_iff_mul_le hps]
    omega
  nlinarith

lemma vrbInv_advance_new {vrb : Vrb} {n : Int} (hv : vrbInv vrb)
    (ht : 0 < vrb.totsize) (hn : 0 ≤ n)
    (hroom : (vrb_poi_new vrb n).isSome = true) :
    vrbInv (vrb_advance_new vrb n) := by
  obtain ⟨h0, h1, h2, h3⟩ := hv
  rw [vrb_poi_new_isSome] at hroom
  have htz : vrb.totsize ≠ 0 := by omega
  have hrearnn : 0 ≤ vrb.rear := by
    rw [h3]; exact Int.emod_nonneg _ htz
  refine ⟨by simp [vrb_advance_new]; omega, by simp [vrb_advance_new]; omega,
    by simp [vrb_advance_new]; omega, ?_⟩
  show Int.tmod (vrb.rear + n) vrb.totsize =
    (vrb.front + (vrb.fillsize + n)) % vrb.totsize
  rw [Int.tmod_eq_emod (by omega) (by omega), h3, Int.emod_add_emod,
    ← add_assoc]

lemma vrbInv_advance_old {vrb : Vrb} {n : Int} (hv : vrbInv vrb)
    (ht : 0 < vrb.totsize) (hn : 0 ≤ n) (hle : n ≤ vrb.fillsize) :
    vrbInv (vrb_advance_old vrb n) := by
  obtain ⟨h0, h1, h2, h3⟩ := hv
  have htz : vrb.totsize ≠ 0 := by omega
  refine ⟨by simp [vrb_advance_old]; omega, by simp [vrb_advance_old]; omega,
    ?_, ?_⟩
  · show 0 ≤ Int.tmod (vrb.front + n) vrb.totsize
    rw [Int.tmod_eq_emod (by omega) (by omega)]
    exact Int.emod_nonneg _ htz
  · show vrb.rear =
      (Int.tmod (vrb.front + n) vrb.totsize + (vrb.fillsize - n)) %
        vrb.totsize
    rw [Int.tmod_eq_emod (by omega) (by omega), Int.emod_add_emod]
    have harith : vrb.front + n + (vrb.fillsize - n) =
        vrb.front + vrb.fillsize := by ring
    rw [harith, h3]

/-- C1: the virtual ring buffer invariant 0 ≤ fillsize ≤ totsize and
rear = (front + fillsize) mod totsize holds in the initial state
front = rear = fillsize = 0 produced by init_vrb (for any positive page size
and requested minimum size), and it is preserved by the four operations:
vrb_poi_new and vrb_poi_old do not change the state, vrb_advance_new with n
bytes preserves it whenever it immediately follows a successful
vrb_poi_new for n, and vrb_advance_old preserves it whenever n ≤ fillsize. -/
theorem vrb_invariant_preservation (pagesize minsize : Int)
    (hps : 0 < pagesize) (hms : 0 < minsize) (vrb : Vrb) (n : Int)
    (hv : vrbInv vrb) (ht : 0 < vrb.totsize) (hn : 0 ≤ n) :
    vrbInv (init_vrb pagesize minsize) ∧
    ((vrb_poi_new vrb n).isSome = true → vrbInv (vrb_advance_new vrb n)) ∧
    (n ≤ vrb.fillsize → vrbInv (vrb_advance_old vrb n)) := by
  refine ⟨?_, fun hroom => vrbInv_advance_new hv ht hn hroom,
    fun hle => vrbInv_advance_old hv ht hn hle⟩
  have hpos := init_vrb_totsize_pos pagesize minsize hps hms
  refine ⟨le_refl 0, ?_, le_refl 0, ?_⟩
  · show (0 : Int) ≤ (init_vrb pagesize minsize).totsize
    omega
  · show (0 : Int) = (0 + 0) % (init_vrb pagesize minsize).totsize
    simp

/-- Witness for C1: the invariant statement evaluated at page size 4096,
minimum size 3, the empty buffer of capacity 4096, and n = 8. -/
theorem vrb_invariant_preservation_witness :
    vrbInv (init_vrb 4096 3) ∧
    ((vrb_poi_new (Vrb.mk 0 0 0 4096) 8).isSome = true →
      vrbInv (vrb_advance_new (Vrb.mk 0 0 0 4096) 8)) ∧
    (8 ≤ (Vrb.mk 0 0 0 4096).fillsize →
      vrbInv (vrb_advance_old (Vrb.mk 0 0 0 4096) 8)) :=
  vrb_invariant_preservation 4096 3 (by decide) (by decide)
    (Vrb.mk 0 0 0 4096) 8 (by decide) (by decide) (by decide)

/-- struct header_lofar of the source (packed 16-byte LOFAR packet header).
The bit fields of the source union are modelled as small nonnegative
integers; timestamp and sequence are signed 32-bit in the source. -/
structure HeaderLofar where
  version : Int
  rsp_id : Int
  unused1 : Int
  error : Int
  is200mhz : Int
  bm : Int
  unused2 : Int
  config : Int
  station : Int
  num_beamlets : Int
  num_slices : Int
  timestamp : Int
  sequence : Int
deriving Repr, DecidableEq

/-- beamformed_packno of the source, written exactly as the C expression
((timestamp*1000000l*(160+40*is200mhz)+512)/1024+sequence)/16 with C
truncating division. -/
def beamformed_packno (header : HeaderLofar) : Int :=
  Int.tdiv
    (Int.tdiv
      (header.timestamp * 1000000 * (160 + 40 * header.is200mhz) + 512) 1024
      + header.sequence) 16

/-- beamformed_checkpack of the source: a packet is good iff error == 0 and
timestamp != -1. -/
def beamformed_checkpack (header : HeaderLofar) : Bool :=
  header.error == 0 && !(header.timestamp == -1)

/-- The packet-number formula exactly as the specification words it:
packno = (timestamp · 1_000_000 · (160 + 40·is200mhz) + 512) / 1024 / 16
+ sequence / 16, with truncating integer division and with sequence / 16
added as a separate truncated term. Kept as a second definition to be
compared with beamformed_packno, which is taken from the source. -/
def spec_formula_packno (timestamp sequence is200mhz : Int) : Int :=
  Int.tdiv
    (Int.tdiv (timestamp * 1000000 * (160 + 40 * is200mhz) + 512) 1024) 16
    + Int.tdiv sequence 16

/-- Counterexample for C2: for the header with timestamp 1, sequence 6,
is200mhz 0 the program computes ((160000512/1024)+6)/16 = 9766, while the
formula of the specification gives 160000512/1024/16 + 6/16 = 9765: the
program adds sequence to the /1024 quotient before the division by 16, the
specification divides first and adds sequence/16 separately. -/
theorem packno_spec_formula_counterexample :
    beamformed_packno (HeaderLofar.mk 3 0 0 0 0 0 0 0 0 0 0 1 6) ≠
      spec_formula_packno 1 6 0 := by decide

/-- C2 amended: for every header the packet number computed by the program
equals ((timestamp · 1_000_000 · (160 + 40·is200mhz) + 512) / 1024
+ sequence) / 16, that is, sequence is added to the /1024 quotient and a
single division by 16 follows; stated with floor division, which the
truncating divisions of the code agree with on the nonnegative field
values. -/
theorem beamformed_packno_eq_amended_formula (h : HeaderLofar)
    (hts : 0 ≤ h.timestamp) (hseq : 0 ≤ h.sequence) (hm : 0 ≤ h.is200mhz) :
    beamformed_packno h =
      ((h.timestamp * 1000000 * (160 + 40 * h.is200mhz) + 512) / 1024
        + h.sequence) / 16 := by
  unfold beamformed_packno
  have hA : 0 ≤ h.timestamp * 1000000 * (160 + 40 * h.is200mhz) + 512 := by
    have := mul_nonneg (mul_nonneg hts (by norm_num : (0:Int) ≤ 1000000))
      (by omega : (0:Int) ≤ 160 + 40 * h.is200mhz)
    omega
  rw [Int.tdiv_eq_ediv hA (by norm_num)]
  have hq : 0 ≤ (h.timestamp * 1000000 * (160 + 40 * h.is200mhz) + 512) / 1024
      + h.sequence :=
    add_nonneg (Int.ediv_nonneg hA (by norm_num)) hseq
  rw [Int.tdiv_eq_ediv hq (by norm_num)]

/-- Witness for the amended C2: the equality evaluated at the header with
timestamp 1, sequence 6, is200mhz 0, where both sides are 9766. -/
theorem beamformed_packno_eq_amended_formula_witness :
    beamformed_packno (HeaderLofar.mk 3 0 0 0 0 0 0 0 0 0 0 1 6) =
      ((1 * 1000000 * (160 + 40 * 0) + 512) / 1024 + 6) / 16 :=
  beamformed_packno_eq_amended_formula
    (HeaderLofar.mk 3 0 0 0 0 0 0 0 0 0 0 1 6)
    (by decide) (by decide) (by decide)

/-- The chunk-size computation of one consumer write iteration (source lines
1154-1174): thissize starts as the ring-buffer fillsize, is capped at
maxwrite, and if packlen is nonzero it is rounded down to a whole multiple
of packlen by thissize = (thissize/packlen)*packlen with C truncating
division. -/
def consumer_chunk (fillsize maxwrite packlen : Int) : Int :=
  let thissize := if fillsize > maxwrite then maxwrite else fillsize
  if packlen ≠ 0 then Int.tdiv thissize packlen * packlen else thissize

/-- The byte offsets at which the consumer writes land in the output file:
offset 0 before the first write, then the partial sums of the write sizes of
the successive iterations, each iteration seeing the fillsize it found. -/
def write_offsets (maxwrite packlen : Int) (fills : List Int) : List Int :=
  List.scanl (fun a b => a + b) 0
    (fills.map (fun f => consumer_chunk f maxwrite packlen))

lemma consumer_chunk_dvd (f m L : Int) (hL : L ≠ 0) :
    L ∣ consumer_chunk f m L := by
  unfold consumer_chunk
  simp only [hL, if_true, ne_eq, not_false_eq_true]
  exact dvd_mul_left L _

lemma dvd_scanl_add (L a : Int) (ha : L ∣ a) (l : List Int)
    (hl : ∀ x ∈ l, L ∣ x) :
    ∀ y ∈ List.scanl (fun a b => a + b) a l, L ∣ y := by
  induction l generalizing a with
  | nil => simpa using ha
  | cons x xs ih =>
    intro y hy
    rw [List.scanl_cons] at hy
    rcases List.mem_cons.mp hy with h | h
    · exact h ▸ ha
    · exact ih (a + x) (dvd_add ha (hl x (List.mem_cons_self x xs)))
        (fun z hz => hl z (List.mem_cons_of_mem x hz)) y h

/-- C3: each consumer write iteration writes
consumer_chunk fillsize maxwrite L bytes, and when the fixed packet length
L is positive this equals min(fillsize, maxwrite) rounded down to the
nearest multiple of L; consequently every write size is a multiple of L and
every offset in the output file (every partial sum of write sizes over any
sequence of iterations) is a multiple of L. -/
theorem consumer_write_size (f m L : Int) (hf : 0 ≤ f) (hm : 0 ≤ m)
    (hL : 0 < L) (fills : List Int) :
    consumer_chunk f m L = min f m / L * L ∧
    L ∣ consumer_chunk f m L ∧
    ∀ off ∈ write_offsets m L fills, L ∣ off := by
  refine ⟨?_, consumer_chunk_dvd f m L (by omega), ?_⟩
  · have hLne : L ≠ 0 := by omega
    simp only [consumer_chunk]
    rw [if_pos hLne]
    by_cases hcmp : f > m
    · rw [if_pos hcmp, min_eq_right (le_of_lt hcmp),
        Int.tdiv_eq_ediv hm (by omega)]
    · rw [if_neg hcmp, min_eq_left (by omega),
        Int.tdiv_eq_ediv hf (by omega)]
  · exact dvd_scanl_add L 0 (dvd_zero L) _
      (by
        intro x hx
        obtain ⟨g, _, rfl⟩ := List.mem_map.mp hx
        exact consumer_chunk_dvd g m L (by omega))

/-- Witness for C3: fillsize 5000, maxwrite 4096, packet length 1000 and a
run with fillsizes 5000 and 3000: the chunk is 4000 = (min 5000 4096 / 1000)
rounded, and all resulting offsets are multiples of 1000. -/
theorem consumer_write_size_witness :
    consumer_chunk 5000 4096 1000 = min 5000 4096 / 1000 * 1000 ∧
    (1000 : Int) ∣ consumer_chunk 5000 4096 1000 ∧
    ∀ off ∈ write_offsets 4096 1000 [5000, 3000], (1000 : Int) ∣ off :=
  consumer_write_size 5000 4096 1000 (by decide) (by decide) (by decide)
    [5000, 3000]

/-- Per-port counters of the source: packs_seen, packs_dropped,
bytes_written (bytes committed to the ring buffer for this port),
beamformed_good_packs, beamformed_first_packno, beamformed_last_packno. -/
structure PortStat where
  packs_seen : Int
  packs_dropped : Int
  bytes_written : Int
  beamformed_good_packs : Int
  beamformed_first_packno : Int
  beamformed_last_packno : Int
deriving Repr, DecidableEq

/-- init_thisfilestat of the source for one port: first_packno is set to -1,
seen, dropped, bytes_written and good to 0. beamformed_last_packno is not
touched by init_thisfilestat; as a C global it starts zero-initialised, which
is the value used here. -/
def init_thisfilestat : PortStat :=
  { packs_seen := 0
    packs_dropped := 0
    bytes_written := 0
    beamformed_good_packs := 0
    beamformed_first_packno := -1
    beamformed_last_packno := 0 }

/-- The beamformed accounting of the producer (source lines 851-861): the
last packet number is set to the packno of the packet, the first packet
number is set to it as well if it still holds the sentinel -1, and the good
counter is incremented iff beamformed_checkpack holds. -/
def beamformed_account (header : HeaderLofar) (c : PortStat) : PortStat :=
  let last := beamformed_packno header
  let first := if c.beamformed_first_packno = -1 then last
    else c.beamformed_first_packno
  let good := if beamformed_checkpack header then c.beamformed_good_packs + 1
    else c.beamformed_good_packs
  { c with
    beamformed_last_packno := last
    beamformed_first_packno := first
    beamformed_good_packs := good }

/-- The configuration values the ingest/egress hot path reads: the fixed
packet length packlen (0 = any), the do_blocklen flag of --sizehead, the
beamformed_check flag of --check, and maxwrite. -/
structure Config where
  packlen : Int
  do_blocklen : Bool
  beamformed_check : Bool
  maxwrite : Int
deriving Repr, DecidableEq

/-- Combined state of one port's hot path: the ring buffer, this port's
counters, and bytes_written_thisfile of the consumer. -/
structure SysState where
  rb : Vrb
  stat : PortStat
  bytes_written_thisfile : Int
deriving Repr, DecidableEq

/-- One producer iteration for a packet that has been read with thissize
bytes while not stopped (source lines 833-901): a packet whose size differs
from a nonzero packlen is only reported and discarded; otherwise two bytes
are added for the size header if do_blocklen is set, the beamformed
accounting runs if enabled, packs_seen is incremented, and then
vrb_poi_new is consulted: on NULL the packet is dropped and packs_dropped
incremented; on success the payload is copied, vrb_advance_new commits it,
and bytes_written of the port grows by the committed size. -/
def producer_accept (cfg : Config) (header : HeaderLofar) (thissize : Int)
    (s : SysState) : SysState :=
  if cfg.packlen = 0 ∨ thissize = cfg.packlen then
    let total := if cfg.do_blocklen then thissize + 2 else thissize
    let stat1 := if cfg.beamformed_check then beamformed_account header s.stat
      else s.stat
    let stat2 := { stat1 with packs_seen := stat1.packs_seen + 1 }
    match vrb_poi_new s.rb total with
    | none =>
      { s with stat := { stat2 with packs_dropped := stat2.packs_dropped + 1 } }
    | some _ =>
      { s with
        rb := vrb_advance_new s.rb total
        stat := { stat2 with bytes_written := stat2.bytes_written + total } }
  else s

/-- One producer iteration in stdin mode (source lines 705-735 followed by
the common enqueue path): the producer first blocks on the space-available
condition until vrb_poi_new for packlen succeeds, then reads up to packlen
bytes and runs the common packet path. The blocked case is modelled as a
stutter step. Between the wait and the enqueue only the consumer can run and
it never increases fillsize, so evaluating the guard in the same state as
the enqueue covers every real interleaving. -/
def producer_stdin_iteration (cfg : Config) (header : HeaderLofar)
    (thissize : Int) (s : SysState) : SysState :=
  if (vrb_poi_new s.rb cfg.packlen).isSome then
    producer_accept cfg header thissize s
  else s

/-- One consumer write iteration that found data (source lines 1147-1200):
with vrb_poi_old NULL nothing happens; otherwise the chunk size is computed
from the current fillsize by consumer_chunk, the chunk is written to the
sink, bytes_written_thisfile grows by it and vrb_advance_old releases it. -/
def consumer_write_iteration (cfg : Config) (s : SysState) : SysState :=
  match vrb_poi_old s.rb with
  | none => s
  | some _ =>
    let thissize := consumer_chunk s.rb.fillsize cfg.maxwrite cfg.packlen
    { s with
      rb := vrb_advance_old s.rb thissize
      bytes_written_thisfile := s.bytes_written_thisfile + thissize }

/-- start_file of the source resets bytes_written_thisfile to 0 when a new
file (also a split file) is opened. -/
def start_file_reset (s : SysState) : SysState :=
  { s with bytes_written_thisfile := 0 }

/-- One observable event of the two-thread hot path: arrival of a packet of
a given size, one consumer write iteration, or a file close/reopen. -/
inductive Event where
  | packet (header : HeaderLofar) (thissize : Int)
  | consumerWrite
  | fileRollover
deriving Repr, DecidableEq

/-- Interleaved small-step semantics in stdin mode: packets go through the
blocking stdin iteration. -/
def stdin_step (cfg : Config) (s : SysState) : Event → SysState
  | Event.packet h n => producer_stdin_iteration cfg h n s
  | Event.consumerWrite => consumer_write_iteration cfg s
  | Event.fileRollover => start_file_reset s

/-- Interleaved small-step semantics in UDP mode: packets go through the
non-blocking producer path that drops on a full buffer. -/
def udp_step (cfg : Config) (s : SysState) : Event → SysState
  | Event.packet h n => producer_accept cfg h n s
  | Event.consumerWrite => consumer_write_iteration cfg s
  | Event.fileRollover => start_file_reset s

/-- The size carried by an event (0 for the consumer and rollover events). -/
def eventSize : Event → Int
  | Event.packet _ n => n
  | Event.consumerWrite => 0
  | Event.fileRollover => 0

@[simp]
lemma beamformed_account_packs_seen (h : HeaderLofar) (c : PortStat) :
    (beamformed_account h c).packs_seen = c.packs_seen := by
  simp [beamformed_account]

@[simp]
lemma beamformed_account_packs_dropped (h : HeaderLofar) (c : PortStat) :
    (beamformed_account h c).packs_dropped = c.packs_dropped := by
  simp [beamformed_account]

@[simp]
lemma beamformed_account_bytes_written (h : HeaderLofar) (c : PortStat) :
    (beamformed_account h c).bytes_written = c.bytes_written := by
  simp [beamformed_account]

lemma producer_accept_packs_dropped (cfg : Config) (h : HeaderLofar)
    (n : Int) (s : SysState) :
    (producer_accept cfg h n s).stat.packs_dropped =
      if (cfg.packlen = 0 ∨ n = cfg.packlen) ∧
          (vrb_poi_new s.rb (if cfg.do_blocklen then n + 2 else n)).isNone
      then s.stat.packs_dropped + 1 else s.stat.packs_dropped := by
  simp only [producer_accept]
  by_cases hacc : cfg.packlen = 0 ∨ n = cfg.packlen
  · rw [if_pos hacc]
    cases hnv : vrb_poi_new s.rb (if cfg.do_blocklen then n + 2 else n) with
    | none =>
      by_cases hc : cfg.beamformed_check <;> simp [hacc, hc, hnv]
    | some x =>
      by_cases hc : cfg.beamformed_check <;> simp [hacc, hc, hnv]
  · rw [if_neg hacc]
    simp [hacc]

lemma producer_accept_packs_seen (cfg : Config) (h : HeaderLofar)
    (n : Int) (s : SysState) :
    (producer_accept cfg h n s).stat.packs_seen =
      if cfg.packlen = 0 ∨ n = cfg.packlen
      then s.stat.packs_seen + 1 else s.stat.packs_seen := by
  simp only [producer_accept]
  by_cases hacc : cfg.packlen = 0 ∨ n = cfg.packlen
  · rw [if_pos hacc, if_pos hacc]
    cases hnv : vrb_poi_new s.rb (if cfg.do_blocklen then n + 2 else n) with
    | none =>
      by_cases hc : cfg.beamformed_check <;> simp [hc, hnv]
    | some x =>
      by_cases hc : cfg.beamformed_check <;> simp [hc, hnv]
  · rw [if_neg hacc, if_neg hacc]

lemma producer_accept_bytes_written (cfg : Config) (h : HeaderLofar)
    (n : Int) (s : SysState) :
    (producer_accept cfg h n s).stat.bytes_written =
      if (cfg.packlen = 0 ∨ n = cfg.packlen) ∧
          (vrb_poi_new s.rb (if cfg.do_blocklen then n + 2 else n)).isSome
      then s.stat.bytes_written + (if cfg.do_blocklen then n + 2 else n)
      else s.stat.bytes_written := by
  simp only [producer_accept]
  by_cases hacc : cfg.packlen = 0 ∨ n = cfg.packlen
  · rw [if_pos hacc]
    cases hnv : vrb_poi_new s.rb (if cfg.do_blocklen then n + 2 else n) with
    | none =>
      by_cases hc : cfg.beamformed_check <;> simp [hacc, hc, hnv]
    | some x =>
      by_cases hc : cfg.beamformed_check <;> simp [hacc, hc, hnv]
  · rw [if_neg hacc]
    simp [hacc]

lemma producer_accept_rb (cfg : Config) (h : HeaderLofar)
    (n : Int) (s : SysState) :
    (producer_accept cfg h n s).rb =
      if (cfg.packlen = 0 ∨ n = cfg.packlen) ∧
          (vrb_poi_new s.rb (if cfg.do_blocklen then n + 2 else n)).isSome
      then vrb_advance_new s.rb (if cfg.do_blocklen then n + 2 else n)
      else s.rb := by
  simp only [producer_accept]
  by_cases hacc : cfg.packlen = 0 ∨ n = cfg.packlen
  · rw [if_pos hacc]
    cases hnv : vrb_poi_new s.rb (if cfg.do_blocklen then n + 2 else n) with
    | none => simp [hacc, hnv]
    | some x => simp [hacc, hnv]
  · rw [if_neg hacc]
    simp [hacc]

lemma producer_accept_bwf (cfg : Config) (h : HeaderLofar)
    (n : Int) (s : SysState) :
    (producer_accept cfg h n s).bytes_written_thisfile =
      s.bytes_written_thisfile := by
  simp only [producer_accept]
  by_cases hacc : cfg.packlen = 0 ∨ n = cfg.packlen
  · rw [if_pos hacc]
    cases hnv : vrb_poi_new s.rb (if cfg.do_blocklen then n + 2 else n) with
    | none => simp [hnv]
    | some x => simp [hnv]
  · rw [if_neg hacc]

lemma consumer_write_iteration_stat (cfg : Config) (s : SysState) :
    (consumer_write_iteration cfg s).stat = s.stat := by
  unfold consumer_write_iteration
  cases hov : vrb_poi_old s.rb <;> simp

lemma stdin_step_dropped (cfg : Config) (hb : cfg.do_blocklen = false)
    (hp : 0 < cfg.packlen) (s : SysState) (e : Event) :
    (stdin_step cfg s e).stat.packs_dropped = s.stat.packs_dropped := by
  cases e with
  | packet h n =>
    show (producer_stdin_iteration cfg h n s).stat.packs_dropped =
      s.stat.packs_dropped
    unfold producer_stdin_iteration
    by_cases hroom : (vrb_poi_new s.rb cfg.packlen).isSome = true
    · rw [if_pos hroom, producer_accept_packs_dropped]
      have hC : ¬((cfg.packlen = 0 ∨ n = cfg.packlen) ∧
          (vrb_poi_new s.rb
            (if cfg.do_blocklen then n + 2 else n)).isNone = true) := by
        rintro ⟨hacc, hnone⟩
        have hn : n = cfg.packlen := by
          cases hacc with
          | inl h0 => omega
          | inr h1 => exact h1
        rw [hb] at hnone
        simp only [Bool.false_eq_true, if_false] at hnone
        rw [hn] at hnone
        cases hv : vrb_poi_new s.rb cfg.packlen with
        | none => rw [hv] at hroom; simp at hroom
        | some x => rw [hv] at hnone; simp at hnone
      rw [if_neg hC]
    · rw [if_neg hroom]
  | consumerWrite =>
    rw [show stdin_step cfg s Event.consumerWrite =
        consumer_write_iteration cfg s from rfl,
      consumer_write_iteration_stat]
  | fileRollover => rfl

/-- Counterexample for C4: a concrete stdin run with --sizehead enabled in
which a packet is dropped. Buffer capacity 12288, --len 1227, so each stored
packet occupies 1227 + 2 = 1229 bytes. After nine packets fillsize is 11061;
the space-available wait only checks room for packlen = 1227 bytes
(11061 + 1227 = 12288 fits), but the reserve that follows asks for
1227 + 2 = 1229 bytes (11061 + 1229 = 12290 > 12288), so the tenth packet is
dropped: the per-port dropped counter ends at 1, not 0 as the claim states
for every stdin configuration. -/
theorem stdin_sizehead_drop_counterexample :
    (List.foldl (stdin_step (Config.mk 1227 true false 1048576))
      (SysState.mk (Vrb.mk 0 0 0 12288) init_thisfilestat 0)
      (List.replicate 10
        (Event.packet (HeaderLofar.mk 3 0 0 0 0 0 0 0 0 0 0 0 0)
          1227))).stat.packs_dropped = 1 := by decide

/-- C4 amended: in stdin single-source mode without --sizehead ingest never
drops a packet: each producer iteration blocks on the space-available
condition until vrb_poi_new for packlen succeeds, an accepted packet then
has exactly packlen bytes, so the reserve that follows asks for the same
packlen bytes the wait guaranteed and succeeds; over every interleaved run
of stdin iterations, consumer writes and file rollovers the per-port dropped
counter keeps its initial value 0. With --sizehead the wait checks packlen
while the reserve asks packlen + 2, and the counterexample run exhibits a
drop. -/
theorem stdin_mode_never_drops (cfg : Config) (hb : cfg.do_blocklen = false)
    (hp : 0 < cfg.packlen) (events : List Event) (s0 : SysState) :
    (List.foldl (stdin_step cfg) s0 events).stat.packs_dropped =
      s0.stat.packs_dropped := by
  induction events generalizing s0 with
  | nil => rfl
  | cons e es ih =>
    rw [List.foldl_cons, ih (stdin_step cfg s0 e),
      stdin_step_dropped cfg hb hp s0 e]

/-- Witness for the amended C4: a run of three stdin packets of length 1227
(the sizes are checked against packlen), a consumer write and a rollover,
starting from the empty buffer of capacity 12288: the dropped counter stays
0. -/
theorem stdin_mode_never_drops_witness :
    (List.foldl (stdin_step (Config.mk 1227 false false 1048576))
      (SysState.mk (Vrb.mk 0 0 0 12288) init_thisfilestat 0)
      [Event.packet (HeaderLofar.mk 3 0 0 0 0 0 0 0 0 0 0 0 0) 1227,
        Event.consumerWrite,
        Event.packet (HeaderLofar.mk 3 0 0 0 0 0 0 0 0 0 0 0 0) 1227,
        Event.fileRollover,
        Event.packet (HeaderLofar.mk 3 0 0 0 0 0 0 0 0 0 0 0 0)
          1227]).stat.packs_dropped =
      (SysState.mk (Vrb.mk 0 0 0 12288) init_thisfilestat
        0).stat.packs_dropped :=
  stdin_mode_never_drops (Config.mk 1227 false false 1048576) (by decide)
    (by decide) _ _

/-- C5: in UDP mode, when vrb_poi_new reports no space for an accepted
packet, the iteration drops and only accounts the packet: packs_dropped is
incremented, packs_seen is incremented as well (it was advanced before the
reserve), and the ring buffer state (fillsize, front, rear, the whole Vrb
record) and the per-port bytes_written counter are unchanged. -/
theorem udp_no_space_drop (cfg : Config) (h : HeaderLofar) (n : Int)
    (s : SysState) (hacc : cfg.packlen = 0 ∨ n = cfg.packlen)
    (hnospace : s.rb.totsize <
      s.rb.fillsize + (if cfg.do_blocklen then n + 2 else n)) :
    (producer_accept cfg h n s).stat.packs_dropped =
        s.stat.packs_dropped + 1 ∧
      (producer_accept cfg h n s).stat.packs_seen = s.stat.packs_seen + 1 ∧
      (producer_accept cfg h n s).rb = s.rb ∧
      (producer_accept cfg h n s).stat.bytes_written =
        s.stat.bytes_written := by
  have hnone : vrb_poi_new s.rb (if cfg.do_blocklen then n + 2 else n) =
      none := by
    unfold vrb_poi_new
    rw [if_pos (by omega)]
  refine ⟨?_, ?_, ?_, ?_⟩
  · rw [producer_accept_packs_dropped, if_pos ⟨hacc, by rw [hnone]; rfl⟩]
  · rw [producer_accept_packs_seen, if_pos hacc]
  · rw [producer_accept_rb, if_neg]
    rintro ⟨_, hsome⟩
    rw [hnone] at hsome
    simp at hsome
  · rw [producer_accept_bytes_written, if_neg]
    rintro ⟨_, hsome⟩
    rw [hnone] at hsome
    simp at hsome

/-- Witness for C5: a packet of the configured length 1024 arriving at a
buffer of capacity 12288 already holding 12000 bytes is dropped: dropped
and seen are incremented, the buffer and bytes_written are untouched. -/
theorem udp_no_space_drop_witness :
    (producer_accept (Config.mk 1024 false false 1048576)
        (HeaderLofar.mk 3 0 0 0 0 0 0 0 0 0 0 0 0) 1024
        (SysState.mk (Vrb.mk 12000 0 0 12288) init_thisfilestat
          0)).stat.packs_dropped =
        (SysState.mk (Vrb.mk 12000 0 0 12288) init_thisfilestat
          0).stat.packs_dropped + 1 ∧
      (producer_accept (Config.mk 1024 false false 1048576)
        (HeaderLofar.mk 3 0 0 0 0 0 0 0 0 0 0 0 0) 1024
        (SysState.mk (Vrb.mk 12000 0 0 12288) init_thisfilestat
          0)).stat.packs_seen =
        (SysState.mk (Vrb.mk 12000 0 0 12288) init_thisfilestat
          0).stat.packs_seen + 1 ∧
      (producer_accept (Config.mk 1024 false false 1048576)
        (HeaderLofar.mk 3 0 0 0 0 0 0 0 0 0 0 0 0) 1024
        (SysState.mk (Vrb.mk 12000 0 0 12288) init_thisfilestat 0)).rb =
        (SysState.mk (Vrb.mk 12000 0 0 12288) init_thisfilestat 0).rb ∧
      (producer_accept (Config.mk 1024 false false 1048576)
        (HeaderLofar.mk 3 0 0 0 0 0 0 0 0 0 0 0 0) 1024
        (SysState.mk (Vrb.mk 12000 0 0 12288) init_thisfilestat
          0)).stat.bytes_written =
        (SysState.mk (Vrb.mk 12000 0 0 12288) init_thisfilestat
          0).stat.bytes_written :=
  udp_no_space_drop (Config.mk 1024 false false 1048576)
    (HeaderLofar.mk 3 0 0 0 0 0 0 0 0 0 0 0 0) 1024
    (SysState.mk (Vrb.mk 12000 0 0 12288) init_thisfilestat 0)
    (by decide) (by decide)

/-- The state signal_handler interacts with: the shared stop level
(0 running, 1 stop current file, 2 stop program, -1 split) and whether an
output sink is currently open (outf != NULL in the source). -/
structure CtrlState where
  stopped : Int
  outf_open : Bool
deriving Repr, DecidableEq

/-- signal_handler of the source (lines 493-629) restricted to its effect on
the stop level and on the data-available condition variable, with the Linux
signal numbers SIGHUP = 1, SIGINT = 2, SIGALRM = 14, SIGTERM = 15 and the
convention of the source that signum -1 means timeout and 0 a regular
printout. nsock and port0 describe the configured source list (stdin mode
iff nsock == 1 and portnos[0] == 0). The returned Bool tells whether
pthread_cond_signal(&data_available) was called. The statistics printing of
the handler has no effect on this state and is omitted. -/
def signal_handler (signum nsock port0 : Int) (s : CtrlState) :
    CtrlState × Bool :=
  if signum < 0 ∧ s.outf_open = false then
    if nsock = 1 ∧ port0 = 0 then ({ s with stopped := 2 }, true)
    else (s, false)
  else if signum = 2 ∨ signum = 15 ∨ signum = 14 then
    ({ s with stopped := 2 }, true)
  else if signum = -1 ∨ signum = 1 then
    if s.outf_open then
      if signum < 0 then
        if nsock = 1 ∧ port0 = 0 then ({ s with stopped := 2 }, true)
        else if s.stopped = 0 then ({ s with stopped := 1 }, true)
        else (s, true)
      else if s.stopped = 0 then ({ s with stopped := 1 }, true)
      else (s, true)
    else (s, false)
  else (s, false)

/-- Counterexample for C6: in the state with stop level 0 and no file open,
delivery of SIGHUP neither sets the stop level to 1 nor signals the
data-available condition: the entire outf branch of the handler is skipped,
so SIGHUP while idle is a no-op, contrary to the claim that the transition
happens in every program state. -/
theorem sighup_idle_counterexample :
    ¬(((signal_handler 1 1 4346 (CtrlState.mk 0 false)).1.stopped = 1 ↔
        (CtrlState.mk 0 false).stopped = 0) ∧
      (signal_handler 1 1 4346 (CtrlState.mk 0 false)).2 = true) := by
  decide

/-- C6 amended: delivery of SIGHUP transitions the stop level to 1 if and
only if it is currently 0 AND a file is open; with a file open a stop level
of 2, 1 or -1 is left unchanged and the data-available condition is
signalled, while with no file open the handler changes nothing and signals
nothing (SIGHUP while idle is a no-op). -/
theorem sighup_transition (nsock port0 : Int) (s : CtrlState) :
    (signal_handler 1 nsock port0 s).1.stopped =
        (if s.outf_open = true ∧ s.stopped = 0 then 1 else s.stopped) ∧
      (signal_handler 1 nsock port0 s).2 = s.outf_open ∧
      (signal_handler 1 nsock port0 s).1.outf_open = s.outf_open := by
  unfold signal_handler
  by_cases ho : s.outf_open = true <;> by_cases hs : s.stopped = 0 <;>
    simp [ho, hs]

/-- The complete per-packet counter update of an accepted-length packet when
the beamformed check is enabled (source lines 851-863): the beamformed
accounting followed by packs_seen++. Both happen before the reserve, so they
apply to dropped packets as well. -/
def beamformed_seen_account (header : HeaderLofar) (c : PortStat) :
    PortStat :=
  let c1 := beamformed_account header c
  { c1 with packs_seen := c1.packs_seen + 1 }

/-- Counterexample for C7: two accepted packets with identical headers
(timestamp 0, sequence 20, both with packet number 1) leave
first_packno = last_packno = 1 and seen = 2, so
last_packno - first_packno + 1 = 1 < 2 = seen: the claimed inequality fails
for an input sequence with repeated packet numbers. -/
theorem beamformed_expected_counterexample :
    ¬((List.foldl (fun c h => beamformed_seen_account h c) init_thisfilestat
        [HeaderLofar.mk 3 0 0 0 0 0 0 0 0 0 0 0 20,
          HeaderLofar.mk 3 0 0 0 0 0 0 0 0 0 0 0 20]).beamformed_last_packno -
      (List.foldl (fun c h => beamformed_seen_account h c) init_thisfilestat
        [HeaderLofar.mk 3 0 0 0 0 0 0 0 0 0 0 0 20,
          HeaderLofar.mk 3 0 0 0 0 0 0 0 0 0 0 0 20]).beamformed_first_packno
      + 1 ≥
      (List.foldl (fun c h => beamformed_seen_account h c) init_thisfilestat
        [HeaderLofar.mk 3 0 0 0 0 0 0 0 0 0 0 0 20,
          HeaderLofar.mk 3 0 0 0 0 0 0 0 0 0 0 0 20]).packs_seen) := by
  decide

lemma beamformed_run_inv (hdrs : List HeaderLofar) (c : PortStat)
    (h1 : 0 ≤ c.packs_seen)
    (h2 : c.beamformed_good_packs ≤ c.packs_seen)
    (h3 : c.packs_seen = 0 → c.beamformed_first_packno = -1)
    (h4 : 0 < c.packs_seen → 0 ≤ c.beamformed_first_packno ∧
      c.beamformed_first_packno + c.packs_seen ≤ c.beamformed_last_packno + 1)
    (hchain : List.Chain (fun a b => a < b)
      (if c.packs_seen = 0 then -1 else c.beamformed_last_packno)
      (hdrs.map beamformed_packno)) :
    0 ≤ (List.foldl (fun c h => beamformed_seen_account h c) c
        hdrs).packs_seen ∧
      (List.foldl (fun c h => beamformed_seen_account h c) c
        hdrs).beamformed_good_packs ≤
        (List.foldl (fun c h => beamformed_seen_account h c) c
          hdrs).packs_seen ∧
      (0 < (List.foldl (fun c h => beamformed_seen_account h c) c
          hdrs).packs_seen →
        (List.foldl (fun c h => beamformed_seen_account h c) c
          hdrs).beamformed_first_packno +
          (List.foldl (fun c h => beamformed_seen_account h c) c
            hdrs).packs_seen ≤
          (List.foldl (fun c h => beamformed_seen_account h c) c
            hdrs).beamformed_last_packno + 1) := by
  induction hdrs generalizing c with
  | nil =>
    exact ⟨h1, h2, fun hpos => (h4 hpos).2⟩
  | cons h t ih =>
    rw [List.map_cons, List.chain_cons] at hchain
    obtain ⟨hlt, hchain'⟩ := hchain
    rw [List.foldl_cons]
    apply ih
    · simp [beamformed_seen_account]
      omega
    · simp [beamformed_seen_account, beamformed_account]
      split <;> omega
    · intro hz
      exfalso
      simp [beamformed_seen_account] at hz
      omega
    · intro _
      by_cases hzero : c.packs_seen = 0
      · rw [if_pos hzero] at hlt
        have hfirst : c.beamformed_first_packno = -1 := h3 hzero
        constructor
        · simp [beamformed_seen_account, beamformed_account, hfirst]
          omega
        · simp [beamformed_seen_account, beamformed_account, hfirst, hzero]
          try omega
      · rw [if_neg hzero] at hlt
        have hpos : 0 < c.packs_seen := by omega
        obtain ⟨hf0, hfs⟩ := h4 hpos
        have hfirst : ¬c.beamformed_first_packno = -1 := by omega
        constructor
        · simp [beamformed_seen_account, beamformed_account, hfirst]
          omega
        · simp [beamformed_seen_account, beamformed_account, hfirst]
          omega
    · have hsnz : ¬(beamformed_seen_account h c).packs_seen = 0 := by
        simp [beamformed_seen_account]
        omega
      rw [if_neg hsnz]
      have hlast : (beamformed_seen_account h c).beamformed_last_packno =
          beamformed_packno h := by
        simp [beamformed_seen_account, beamformed_account]
      rw [hlast]
      exact hchain'


lemma beamformed_fold_seen (hdrs : List HeaderLofar) (c : PortStat) :
    (List.foldl (fun c h => beamformed_seen_account h c) c hdrs).packs_seen =
      c.packs_seen + hdrs.length := by
  induction hdrs generalizing c with
  | nil => simp
  | cons h t ih =>
    rw [List.foldl_cons, ih]
    simp [beamformed_seen_account]
    omega

/-- C7 amended: with the beamformed check enabled, good ≤ seen holds after
every input packet sequence; and the inequality
last_packno - first_packno + 1 ≥ seen additionally requires the packet
numbers of the accepted packets to be strictly increasing and nonnegative
(encoded as a strictly ascending chain starting above -1), since repeated or
non-monotonic packet numbers violate it, as the counterexample run with two
equal packet numbers shows. -/
theorem beamformed_counter_bounds (hdrs : List HeaderLofar) :
    (List.foldl (fun c h => beamformed_seen_account h c) init_thisfilestat
        hdrs).beamformed_good_packs ≤
      (List.foldl (fun c h => beamformed_seen_account h c) init_thisfilestat
        hdrs).packs_seen ∧
    (List.Chain (fun a b => a < b) (-1) (hdrs.map beamformed_packno) →
      (List.foldl (fun c h => beamformed_seen_account h c) init_thisfilestat
          hdrs).packs_seen ≤
        (List.foldl (fun c h => beamformed_seen_account h c)
          init_thisfilestat hdrs).beamformed_last_packno -
        (List.foldl (fun c h => beamformed_seen_account h c)
          init_thisfilestat hdrs).beamformed_first_packno + 1) := by
  constructor
  · have hinit : init_thisfilestat.beamformed_good_packs ≤
        init_thisfilestat.packs_seen := by decide
    revert hinit
    generalize init_thisfilestat = c
    intro hc
    induction hdrs generalizing c with
    | nil => exact hc
    | cons h t ih =>
      rw [List.foldl_cons]
      apply ih
      simp [beamformed_seen_account, beamformed_account]
      split <;> omega
  · intro hchain
    cases hdrs with
    | nil => decide
    | cons h0 t =>
      have hres := beamformed_run_inv (h0 :: t) init_thisfilestat (by decide)
        (by decide) (fun _ => by decide)
        (fun hpos => by exfalso; revert hpos; decide)
        (by
          rw [show (if init_thisfilestat.packs_seen = 0 then (-1 : Int)
              else init_thisfilestat.beamformed_last_packno) = -1 from
            by decide]
          exact hchain)
      rcases hres with ⟨ha, hb, hcend⟩
      have hlen := beamformed_fold_seen (h0 :: t) init_thisfilestat
      have hpos : 0 < (List.foldl (fun c h => beamformed_seen_account h c)
          init_thisfilestat (h0 :: t)).packs_seen := by
        rw [hlen]
        simp [init_thisfilestat]
      have := hcend hpos
      omega

/-- Witness for the amended C7: two packets with packet numbers 1 and 2
(timestamps 0, sequences 20 and 40): good = 2 ≤ seen = 2 and
seen = 2 ≤ last - first + 1 = 2. -/
theorem beamformed_counter_bounds_witness :
    (List.foldl (fun c h => beamformed_seen_account h c) init_thisfilestat
        [HeaderLofar.mk 3 0 0 0 0 0 0 0 0 0 0 0 20,
          HeaderLofar.mk 3 0 0 0 0 0 0 0 0 0 0 0
            40]).beamformed_good_packs ≤
      (List.foldl (fun c h => beamformed_seen_account h c) init_thisfilestat
        [HeaderLofar.mk 3 0 0 0 0 0 0 0 0 0 0 0 20,
          HeaderLofar.mk 3 0 0 0 0 0 0 0 0 0 0 0 40]).packs_seen ∧
    (List.foldl (fun c h => beamformed_seen_account h c) init_thisfilestat
        [HeaderLofar.mk 3 0 0 0 0 0 0 0 0 0 0 0 20,
          HeaderLofar.mk 3 0 0 0 0 0 0 0 0 0 0 0 40]).packs_seen ≤
      (List.foldl (fun c h => beamformed_seen_account h c) init_thisfilestat
        [HeaderLofar.mk 3 0 0 0 0 0 0 0 0 0 0 0 20,
          HeaderLofar.mk 3 0 0 0 0 0 0 0 0 0 0 0
            40]).beamformed_last_packno -
      (List.foldl (fun c h => beamformed_seen_account h c) init_thisfilestat
        [HeaderLofar.mk 3 0 0 0 0 0 0 0 0 0 0 0 20,
          HeaderLofar.mk 3 0 0 0 0 0 0 0 0 0 0 0
            40]).beamformed_first_packno + 1 :=
  ⟨(beamformed_counter_bounds
      [HeaderLofar.mk 3 0 0 0 0 0 0 0 0 0 0 0 20,
        HeaderLofar.mk 3 0 0 0 0 0 0 0 0 0 0 0 40]).1,
    (beamformed_counter_bounds
      [HeaderLofar.mk 3 0 0 0 0 0 0 0 0 0 0 0 20,
        HeaderLofar.mk 3 0 0 0 0 0 0 0 0 0 0 0 40]).2
      (List.Chain.cons (by decide)
        (List.Chain.cons (by decide) List.Chain.nil))⟩

/-- Conversion of a C double to a C int as performed by passing a double to
the int-typed abs function: truncation toward zero. The double values
involved in the claims are exactly representable, so the value is modelled
as a rational number. -/
def c_int_trunc (q : ℚ) : Int :=
  if 0 ≤ q then ⌊q⌋ else -⌊-q⌋

/-- Processing of an accepted --Maxfilesize value (source lines 1391-1401):
stat_per_splitfile = maxfilesize > 0, then maxfilesize = abs (maxfilesize).
abs in C takes an int, so the double option value is truncated to int before
the absolute value is taken and converted back to double. Returns the pair
(maxfilesize, stat_per_splitfile). -/
def process_option_M (v : ℚ) : ℚ × Bool :=
  (((c_int_trunc v).natAbs : ℚ), decide (0 < v))

/-- The split check of the consumer (source line 1036): a split is triggered
iff maxfilesize > 0 and bytes_written_thisfile > maxfilesize. -/
def split_file_size_exceeded (maxfilesize : ℚ)
    (bytes_written_thisfile : Int) : Bool :=
  decide (0 < maxfilesize ∧ maxfilesize < (bytes_written_thisfile : ℚ))

/-- The split-size threshold as the specification words it: the absolute
value of the accepted --Maxfilesize value, in bytes. Kept as a second
definition to be compared with process_option_M, which follows the source. -/
def spec_split_threshold (v : ℚ) : ℚ := |v|

/-- C8 is a bug in the code: the source applies the int-typed abs function
to the double maxfilesize, truncating it. At the accepted option value
-0.5 (nonzero, hence accepted, and exactly representable as a double) the
code computes the threshold abs((int)(-0.5)) = 0, which disables splitting
entirely, while the specification's threshold |−0.5| = 0.5 would trigger a
split after the first written byte. The sign still selects combined
statistics (stat_per_splitfile = false), that part is computed before the
truncation. -/
theorem maxfilesize_abs_truncates :
    (process_option_M (-1/2)).1 = 0 ∧
      (process_option_M (-1/2)).2 = false ∧
      spec_split_threshold (-1/2) = 1/2 ∧
      (∀ bwf : Int,
        split_file_size_exceeded (process_option_M (-1/2)).1 bwf = false) ∧
      split_file_size_exceeded (spec_split_threshold (-1/2)) 1 = true := by
  have h1 : (process_option_M (-1/2)).1 = 0 := by
    show (((c_int_trunc (-1/2)).natAbs : Int) : ℚ) = 0
    norm_num [c_int_trunc]
  refine ⟨h1, by norm_num [process_option_M], by norm_num [spec_split_threshold], ?_, ?_⟩
  · intro bwf
    rw [h1]
    simp [split_file_size_exceeded]
  · have habs : |(-1/2 : ℚ)| = 1/2 := by
      rw [abs_of_neg (by norm_num)]
      norm_num
    rw [show spec_split_threshold (-1/2) = 1/2 from habs]
    simp only [split_file_size_exceeded, decide_eq_true_eq]
    norm_num

lemma consumer_chunk_eq_zero (f m L : Int) (hf : 0 ≤ f) (hm : 0 < m)
    (hlt : m < L) : consumer_chunk f m L = 0 := by
  unfold consumer_chunk
  rw [if_pos (by omega : L ≠ 0)]
  have ht0 : 0 ≤ (if f > m then m else f) := by split <;> omega
  have htlt : (if f > m then m else f) < L := by split <;> omega
  rw [Int.tdiv_eq_ediv ht0 (by omega), Int.ediv_eq_zero_of_lt ht0 htlt,
    zero_mul]

lemma udp_step_c9 (cfg : Config) (hb : cfg.do_blocklen = false)
    (hL : 0 < cfg.packlen) (s : SysState) (e : Event)
    (hf : cfg.packlen ∣ s.rb.fillsize)
    (hw : cfg.packlen ∣ s.bytes_written_thisfile) :
    cfg.packlen ∣ (udp_step cfg s e).rb.fillsize ∧
      cfg.packlen ∣ (udp_step cfg s e).bytes_written_thisfile := by
  cases e with
  | packet h n =>
    constructor
    · show cfg.packlen ∣ (producer_accept cfg h n s).rb.fillsize
      rw [producer_accept_rb, hb]
      simp only [Bool.false_eq_true, if_false]
      split
      · rename_i hP
        obtain ⟨hacc, _⟩ := hP
        have hn : n = cfg.packlen := by
          cases hacc with
          | inl h0 => omega
          | inr h1 => exact h1
        show cfg.packlen ∣ s.rb.fillsize + n
        rw [hn]
        exact dvd_add hf dvd_rfl
      · exact hf
    · show cfg.packlen ∣ (producer_accept cfg h n s).bytes_written_thisfile
      rw [producer_accept_bwf]
      exact hw
  | consumerWrite =>
    show cfg.packlen ∣ (consumer_write_iteration cfg s).rb.fillsize ∧
      cfg.packlen ∣ (consumer_write_iteration cfg s).bytes_written_thisfile
    unfold consumer_write_iteration
    cases hov : vrb_poi_old s.rb with
    | none => exact ⟨hf, hw⟩
    | some x =>
      refine ⟨?_, ?_⟩
      · show cfg.packlen ∣ s.rb.fillsize -
          consumer_chunk s.rb.fillsize cfg.maxwrite cfg.packlen
        exact dvd_sub hf
          (consumer_chunk_dvd s.rb.fillsize cfg.maxwrite cfg.packlen
            (by omega))
      · show cfg.packlen ∣ s.bytes_written_thisfile +
          consumer_chunk s.rb.fillsize cfg.maxwrite cfg.packlen
        exact dvd_add hw
          (consumer_chunk_dvd s.rb.fillsize cfg.maxwrite cfg.packlen
            (by omega))
  | fileRollover => exact ⟨hf, dvd_zero _⟩

/-- C9: with a fixed packet length L > 0 and --sizehead off, only packets of
exactly L bytes are committed (the producer discards any other size and the
commit adds exactly L), every consumer release is a multiple of L, and a
file open resets bytes_written_thisfile to 0; hence over every interleaved
run, starting from any state where fillsize and bytes_written_thisfile are
multiples of L (in particular the initial zeros), L divides fillsize and
bytes_written_thisfile at every observable state, including at file
close. -/
theorem fixed_length_divisibility (cfg : Config)
    (hb : cfg.do_blocklen = false) (hL : 0 < cfg.packlen)
    (events : List Event) (s0 : SysState)
    (hf0 : cfg.packlen ∣ s0.rb.fillsize)
    (hw0 : cfg.packlen ∣ s0.bytes_written_thisfile) :
    cfg.packlen ∣ (List.foldl (udp_step cfg) s0 events).rb.fillsize ∧
      cfg.packlen ∣
        (List.foldl (udp_step cfg) s0 events).bytes_written_thisfile := by
  induction events generalizing s0 with
  | nil => exact ⟨hf0, hw0⟩
  | cons e es ih =>
    rw [List.foldl_cons]
    obtain ⟨hf1, hw1⟩ := udp_step_c9 cfg hb hL s0 e hf0 hw0
    exact ih (udp_step cfg s0 e) hf1 hw1

/-- Witness for C9: packet length 8, a run with one accepted packet of 8
bytes, one wrong-length packet of 5 bytes (discarded), a consumer write and
a file rollover, from the empty buffer: 8 divides fillsize and
bytes_written_thisfile afterwards. -/
theorem fixed_length_divisibility_witness :
    (8 : Int) ∣ (List.foldl (udp_step (Config.mk 8 false false 1048576))
        (SysState.mk (Vrb.mk 0 0 0 4096) init_thisfilestat 0)
        [Event.packet (HeaderLofar.mk 3 0 0 0 0 0 0 0 0 0 0 0 0) 8,
          Event.packet (HeaderLofar.mk 3 0 0 0 0 0 0 0 0 0 0 0 0) 5,
          Event.consumerWrite, Event.fileRollover]).rb.fillsize ∧
      (8 : Int) ∣ (List.foldl (udp_step (Config.mk 8 false false 1048576))
        (SysState.mk (Vrb.mk 0 0 0 4096) init_thisfilestat 0)
        [Event.packet (HeaderLofar.mk 3 0 0 0 0 0 0 0 0 0 0 0 0) 8,
          Event.packet (HeaderLofar.mk 3 0 0 0 0 0 0 0 0 0 0 0 0) 5,
          Event.consumerWrite,
          Event.fileRollover]).bytes_written_thisfile :=
  fixed_length_divisibility (Config.mk 8 false false 1048576) (by decide)
    (by decide) _ (SysState.mk (Vrb.mk 0 0 0 4096) init_thisfilestat 0)
    (by decide) (by decide)

lemma udp_step_fill_mono (cfg : Config) (hmw : 0 < cfg.maxwrite)
    (hlt : cfg.maxwrite < cfg.packlen) (s : SysState) (e : Event)
    (hs : 0 ≤ s.rb.fillsize) (he : 0 ≤ eventSize e) :
    0 ≤ (udp_step cfg s e).rb.fillsize ∧
      s.rb.fillsize ≤ (udp_step cfg s e).rb.fillsize := by
  cases e with
  | packet h n =>
    have hn : 0 ≤ n := he
    have htot : 0 ≤ (if cfg.do_blocklen then n + 2 else n) := by
      split <;> omega
    rw [show (udp_step cfg s (Event.packet h n)).rb =
      (producer_accept cfg h n s).rb from rfl, producer_accept_rb]
    by_cases hP : (cfg.packlen = 0 ∨ n = cfg.packlen) ∧
        (vrb_poi_new s.rb (if cfg.do_blocklen then n + 2 else n)).isSome =
          true
    · rw [if_pos hP]
      constructor <;> simp [vrb_advance_new] <;> omega
    · rw [if_neg hP]
      exact ⟨hs, le_refl _⟩
  | consumerWrite =>
    show 0 ≤ (consumer_write_iteration cfg s).rb.fillsize ∧
      s.rb.fillsize ≤ (consumer_write_iteration cfg s).rb.fillsize
    unfold consumer_write_iteration
    cases hov : vrb_poi_old s.rb with
    | none => exact ⟨hs, le_refl _⟩
    | some x =>
      have hchunk := consumer_chunk_eq_zero s.rb.fillsize cfg.maxwrite
        cfg.packlen hs hmw hlt
      constructor <;> simp [vrb_advance_old, hchunk] <;> omega
  | fileRollover => exact ⟨hs, le_refl _⟩

/-- C10: if the configured fixed packet length exceeds maxwrite (both
values pass option validation: 0 < packlen < 10000 = MMAXLEN and
maxwrite > 1024), then every consumer write iteration computes a chunk of 0
bytes, writes nothing (bytes_written_thisfile is unchanged) and leaves
fillsize unchanged; consequently over any interleaved run the buffer fill
level never decreases once data has arrived. -/
theorem consumer_starves_when_maxwrite_lt_len (cfg : Config)
    (hL : 0 < cfg.packlen) (hLmax : cfg.packlen < 10000)
    (hmw : 1024 < cfg.maxwrite) (hlt : cfg.maxwrite < cfg.packlen)
    (f : Int) (hf : 0 ≤ f) (events : List Event) (s0 : SysState)
    (h0 : 0 ≤ s0.rb.fillsize) (hev : ∀ e ∈ events, 0 ≤ eventSize e) :
    consumer_chunk f cfg.maxwrite cfg.packlen = 0 ∧
      (consumer_write_iteration cfg s0).rb.fillsize = s0.rb.fillsize ∧
      (consumer_write_iteration cfg s0).bytes_written_thisfile =
        s0.bytes_written_thisfile ∧
      s0.rb.fillsize ≤ (List.foldl (udp_step cfg) s0 events).rb.fillsize := by
  have hmw0 : 0 < cfg.maxwrite := by omega
  refine ⟨consumer_chunk_eq_zero f cfg.maxwrite cfg.packlen hf hmw0 hlt,
    ?_, ?_, ?_⟩
  · unfold consumer_write_iteration
    cases hov : vrb_poi_old s0.rb with
    | none => rfl
    | some x =>
      have hchunk := consumer_chunk_eq_zero s0.rb.fillsize cfg.maxwrite
        cfg.packlen h0 hmw0 hlt
      simp [vrb_advance_old, hchunk]
  · unfold consumer_write_iteration
    cases hov : vrb_poi_old s0.rb with
    | none => rfl
    | some x =>
      have hchunk := consumer_chunk_eq_zero s0.rb.fillsize cfg.maxwrite
        cfg.packlen h0 hmw0 hlt
      simp [hchunk]
  · induction events generalizing s0 with
    | nil => exact le_refl _
    | cons e es ih =>
      rw [List.foldl_cons]
      have hstep := udp_step_fill_mono cfg hmw0 hlt s0 e h0
        (hev e (List.mem_cons_self e es))
      exact le_trans hstep.2
        (ih (udp_step cfg s0 e) hstep.1
          (fun x hx => hev x (List.mem_cons_of_mem e hx)))

/-- Witness for C10: packlen 2000, maxwrite 1025 (both accepted by option
validation), fillsize query 1500, and a run of one arriving packet of 2000
bytes followed by a consumer write from the empty buffer: the chunk is 0,
the write iteration changes nothing, and the fill level does not
decrease. -/
theorem consumer_starves_when_maxwrite_lt_len_witness :
    consumer_chunk 1500 1025 2000 = 0 ∧
      (consumer_write_iteration (Config.mk 2000 false false 1025)
        (SysState.mk (Vrb.mk 0 0 0 12288) init_thisfilestat
          0)).rb.fillsize =
        (SysState.mk (Vrb.mk 0 0 0 12288) init_thisfilestat
          0).rb.fillsize ∧
      (consumer_write_iteration (Config.mk 2000 false false 1025)
        (SysState.mk (Vrb.mk 0 0 0 12288) init_thisfilestat
          0)).bytes_written_thisfile =
        (SysState.mk (Vrb.mk 0 0 0 12288) init_thisfilestat
          0).bytes_written_thisfile ∧
      (SysState.mk (Vrb.mk 0 0 0 12288) init_thisfilestat
        0).rb.fillsize ≤
        (List.foldl (udp_step (Config.mk 2000 false false 1025))
          (SysState.mk (Vrb.mk 0 0 0 12288) init_thisfilestat 0)
          [Event.packet (HeaderLofar.mk 3 0 0 0 0 0 0 0 0 0 0 0 0) 2000,
            Event.consumerWrite]).rb.fillsize :=
  consumer_starves_when_maxwrite_lt_len (Config.mk 2000 false false 1025)
    (by decide) (by decide) (by decide) (by decide) 1500 (by decide)
    [Event.packet (HeaderLofar.mk 3 0 0 0 0 0 0 0 0 0 0 0 0) 2000,
      Event.consumerWrite]
    (SysState.mk (Vrb.mk 0 0 0 12288) init_thisfilestat 0) (by decide)
    (by decide)
